import Mathlib

/-!
Shallow embedding of `examples/mnist.py` from the AutoOpt repository.

The script wires two small networks (`FCNet`, `CNN`) to a train/test loop,
a CLI argument parser with seeding side effects, and a string-keyed
optimizer/model dispatch.  Real numbers carried by the framework are
modelled as rationals; the IEEE special values that matter for the NaN
check in `train` are modelled by an explicit `FloatVal` type.
-/

set_option autoImplicit false

namespace AutoOptMnist

/-! ### Floating-point loss values, for the `torch.isnan` check in `train` -/

/-- A scalar loss value as produced by the framework: either an ordinary
(finite) number, one of the two infinities, or NaN. -/
inductive FloatVal where
  | val (q : ℚ)
  | posInf
  | negInf
  | nan
deriving DecidableEq, Repr

/-- Model of torch.isnan: true exactly on NaN. -/
def FloatVal.isnan : FloatVal → Bool
  | .nan => true
  | _ => false

/-- Model of torch.isfinite: true exactly on ordinary numbers, not infinities and not NaN. -/
def FloatVal.isfinite : FloatVal → Bool
  | .val _ => true
  | _ => false

/-! ### The training loop of `train` (mnist.py lines 138-163)

Each iteration of the loop computes a scalar loss, then runs

    if torch.isnan(loss):
        sys.exit()          # after importing sys locally
    loss.backward()
    optimizer.step()

We abstract each batch to the loss it produces and record the
framework side effects (`loss.backward()`, `optimizer.step()`) as events.
`sys.exit()` is modelled by stopping the loop with an `exited = true` flag:
no further events are produced. -/

/-- A framework side effect performed by the loop body of train. -/
inductive TrainEvent where
  | backward
  | step
deriving DecidableEq, Repr

/-- The loop of `train` over the losses of successive batches.  Returns the
events performed and whether the process exited via `sys.exit()`. -/
def trainLoop : List FloatVal → List TrainEvent × Bool
  | [] => ([], false)
  | l :: ls =>
    if l.isnan then ([], true)
    else
      let r := trainLoop ls
      (TrainEvent.backward :: TrainEvent.step :: r.1, r.2)

/-! ### Per-sample NLL losses and the two loss branches of `train`
(mnist.py lines 147-151) -/

/-- Model of F.nll_loss on one sample: the model output is a vector of
log-probabilities and the loss is the negated entry at the target index. -/
def nllSample (output : List ℚ) (target : ℕ) : ℚ :=
  -(output.getD target 0)

/-- Model of F.nll_loss with reduction none: the list of per-sample
losses of a batch. -/
def nllLossNone (outputs : List (List ℚ)) (targets : List ℕ) : List ℚ :=
  List.zipWith nllSample outputs targets

/-- Model of F.nll_loss with the default mean reduction:
the per-sample losses summed and divided by the number of targets. -/
def nllLossRed (outputs : List (List ℚ)) (targets : List ℕ) : ℚ :=
  (List.zipWith nllSample outputs targets).sum / (targets.length : ℚ)

/-- Model of torch.mean of a one-dimensional tensor. -/
def torchMean (xs : List ℚ) : ℚ :=
  xs.sum / (xs.length : ℚ)

/-- The loss computation in the loop body of train: optimizers named
`sgd`, `adam` or `adagrad` use the reduced `F.nll_loss`; every other
optimizer stores the unreduced losses in `model.loss_all` and takes
`torch.mean` of them. -/
def trainBatchLoss (optName : String) (outputs : List (List ℚ))
    (targets : List ℕ) : ℚ :=
  if optName ∈ ["sgd", "adam", "adagrad"] then
    nllLossRed outputs targets
  else
    torchMean (nllLossNone outputs targets)

/-! ### The model and optimizer dispatch of `main` (mnist.py lines 186-211) -/

/-- The library-defined error raised by `main` on unknown dispatch keys. -/
structure AutoOptError where
  msg : String
deriving DecidableEq, Repr

/-- Which model `main` constructed. -/
inductive ModelChoice where
  | fc
  | cnn
deriving DecidableEq, Repr

/-- The model dispatch of `main`:
the string fc builds FCNet, the string cnn builds CNN, and anything else
raises AutoOptError with an unknown-model-type message. -/
def selectModel (model : String) : Except AutoOptError ModelChoice :=
  if model = "fc" then Except.ok ModelChoice.fc
  else if model = "cnn" then Except.ok ModelChoice.cnn
  else Except.error ⟨"Error: Unknown model type: " ++ model⟩

/-- The hyperparameters `main` reads off the parsed arguments when
constructing an optimizer. -/
structure Args where
  lr : ℚ
  momentum : ℚ
  beta_1 : ℚ
  beta_2 : ℚ
  eps : ℚ
deriving DecidableEq, Repr

/-- The optimizer object constructed by `main`, with the constructor
arguments the script passes. -/
inductive OptimizerInstance where
  | torchSGD (lr momentum dampening : ℚ)
  | autoSGD
  | torchAdam (lr beta1 beta2 eps : ℚ)
  | autoAdam
  | gaussNewton (lr beta1 beta2 eps : ℚ)
  | autoGaussNewton (beta2 eps : ℚ)
deriving DecidableEq, Repr

/-- The optimizer dispatch of main, the if/elif chain on the parsed
optimizer name; the final else raises AutoOptError with an
unknown-optimizer message. -/
def selectOptimizer (a : Args) (opt : String) :
    Except AutoOptError OptimizerInstance :=
  if opt = "sgd" then
    Except.ok (OptimizerInstance.torchSGD a.lr a.momentum a.momentum)
  else if opt = "auto-sgd" then
    Except.ok OptimizerInstance.autoSGD
  else if opt = "adam" then
    Except.ok (OptimizerInstance.torchAdam a.lr a.beta_1 a.beta_2 a.eps)
  else if opt = "auto-adam" then
    Except.ok OptimizerInstance.autoAdam
  else if opt = "gauss-newton" ∨ opt = "gn" then
    Except.ok (OptimizerInstance.gaussNewton a.lr a.beta_1 a.beta_2 a.eps)
  else if opt = "auto-gauss-newton" ∨ opt = "auto-gn" then
    Except.ok (OptimizerInstance.autoGaussNewton a.beta_2 a.eps)
  else
    Except.error ⟨"Error: Unknown optimizer: " ++ opt⟩

/-- Whether an `Except` is in the error case. -/
def isError {ε α : Type} : Except ε α → Bool
  | .error _ => true
  | .ok _ => false

/-! ### The seeding side effects of `get_args` (mnist.py lines 108-112)

    if args.seed != -1:
        torch.manual_seed(args.seed)
    if args.cuda:
        torch.cuda.manual_seed(args.seed)
-/

/-- A seeding call made by `get_args`. -/
inductive SeedCall where
  | manualSeed (s : ℤ)
  | cudaManualSeed (s : ℤ)
deriving DecidableEq, Repr

/-- The list of seeding calls `get_args` performs, given the parsed seed
and whether CUDA is active. -/
def getArgsSeedCalls (seed : ℤ) (cuda : Bool) : List SeedCall :=
  (if seed ≠ -1 then [SeedCall.manualSeed seed] else []) ++
  (if cuda then [SeedCall.cudaManualSeed seed] else [])

/-! ### The epoch loop of `main` (mnist.py lines 213-215)

    for epoch in range(1, args.epochs + 1):
        train(epoch, model, args, train_loader, optimizer)
        test(model, args, test_loader)
-/

/-- Model of the Python range(a, b) over integers: the list of integers from a up to b - 1. -/
def pyRange (a b : ℤ) : List ℤ :=
  (List.range (b - a).toNat).map (fun i : ℕ => a + (i : ℤ))

/-- A call made by the epoch loop of main, tagged with the epoch number. -/
inductive EpochCall where
  | trainCall (epoch : ℤ)
  | testCall (epoch : ℤ)
deriving DecidableEq, Repr

/-- The sequence of `train`/`test` calls `main` makes:
`for epoch in range(1, args.epochs + 1)`, calling `train` then `test`. -/
def mainEpochCalls (epochs : ℤ) : List EpochCall :=
  (pyRange 1 (epochs + 1)).flatMap
    (fun e => [EpochCall.trainCall e, EpochCall.testCall e])

/-! ### The evaluation loop of `test` (mnist.py lines 166-182)

    test_loss = 0
    correct = 0
    for data, target in test_loader:
        output = model(data)
        test_loss += F.nll_loss(output, target)
        pred = output.data.max(1, keepdim=True)[1]
        correct += pred.eq(target.data.view_as(pred)).cpu().sum()
    test_loss /= len(test_loader.dataset)
-/

/-- One batch of the test loader, abstracted to the model outputs for its
samples (rows of log-probabilities) and their labels. -/
structure TestBatch where
  outputs : List (List ℚ)
  labels : List ℕ
deriving DecidableEq, Repr

/-- The samples of a test batch: each output row paired with its label. -/
def TestBatch.samples (b : TestBatch) : List (List ℚ × ℕ) :=
  b.outputs.zip b.labels

/-- The maximal entry of an output row (`0` on an empty row). -/
def listMax : List ℚ → ℚ
  | [] => 0
  | [x] => x
  | x :: y :: r => max x (listMax (y :: r))

/-- Model of output.data.max(1, keepdim=True)[1] on one row: the index of the
first maximal entry. -/
def argmaxIdx : List ℚ → ℕ
  | [] => 0
  | [_] => 0
  | x :: y :: r => if x < listMax (y :: r) then argmaxIdx (y :: r) + 1 else 0

/-- The loop body of test: add the reduced nll loss of the batch to
test_loss and the count of correct predictions of the batch to correct. -/
def testStep (acc : ℚ × ℕ) (b : TestBatch) : ℚ × ℕ :=
  (acc.1 + nllLossRed b.outputs b.labels,
   acc.2 + b.samples.countP (fun p => argmaxIdx p.1 == p.2))

/-- The loop of test: both accumulators start at zero and every batch of the
test loader is processed; returns `(test_loss, correct)` before the final
division. -/
def testRun (batches : List TestBatch) : ℚ × ℕ :=
  batches.foldl testStep (0, 0)

/-- Model of len(test_loader.dataset): the total number of samples over all test
batches. -/
def datasetSize (batches : List TestBatch) : ℕ :=
  (batches.map (fun b => b.labels.length)).sum

/-- The `Average loss` figure `test` prints: the accumulated `test_loss`
divided by the dataset size. -/
def testAvgLoss (batches : List TestBatch) : ℚ :=
  (testRun batches).1 / (datasetSize batches : ℚ)

/-- All per-sample nll losses of the test set, in loader order. -/
def allSampleLosses (batches : List TestBatch) : List ℚ :=
  batches.flatMap (fun b => nllLossNone b.outputs b.labels)

/-- Modelled from the spec side of the comparison in the claim: the mean
nll loss over all individual test samples. -/
def perSampleMean (batches : List TestBatch) : ℚ :=
  (allSampleLosses batches).sum / ((allSampleLosses batches).length : ℚ)

/-! ### `FCNet.forward` and the module flag `use_mse_loss`
(mnist.py lines 27-43 and 135) -/

/-- The module-level flag; initialized to `False` at line 135 and never
assigned anywhere else in the script. -/
def use_mse_loss : Bool := false

/-- An `nn.Linear` layer: a weight matrix (rows) and a bias vector. -/
structure LinearLayer where
  weight : List (List ℚ)
  bias : List ℚ
deriving DecidableEq, Repr

/-- Dot product of two vectors. -/
def dot (xs ys : List ℚ) : ℚ :=
  (List.zipWith (· * ·) xs ys).sum

/-- Application of an `nn.Linear` layer to one input vector. -/
def linearApply (L : LinearLayer) (x : List ℚ) : List ℚ :=
  List.zipWith (fun row b => dot row x + b) L.weight L.bias

/-- Model of F.relu on a vector. -/
def reluVec (x : List ℚ) : List ℚ :=
  x.map (fun q => max 0 q)

/-- The value `FCNet.forward` returns: either `F.softmax` or
`F.log_softmax` applied to the output of the final layer, kept symbolic since
the claims only concern which branch is taken. -/
inductive FCOut where
  | softmaxOf (z : List ℚ)
  | logSoftmaxOf (z : List ℚ)
deriving DecidableEq, Repr

/-- The `FCNet` model: three linear layers. -/
structure FCNet where
  fc_0 : LinearLayer
  fc_1 : LinearLayer
  fc_2 : LinearLayer
deriving DecidableEq, Repr

/-- Computation of FCNet.forward on one already flattened input vector:
relu of fc_0, relu of fc_1, then fc_2, and finally F.softmax when
use_mse_loss is set, else F.log_softmax. -/
def FCNet.forward (m : FCNet) (x : List ℚ) : FCOut :=
  let a0 := reluVec (linearApply m.fc_0 x)
  let a1 := reluVec (linearApply m.fc_1 a0)
  let z := linearApply m.fc_2 a1
  if use_mse_loss then FCOut.softmaxOf z else FCOut.logSoftmaxOf z

/-! ## Helper lemmas -/

/-- Unfolding of the fold in testRun over an arbitrary starting
accumulator: the loop adds the sum of the reduced batch losses to the
first component and the number of correctly classified samples to the
second. -/
theorem testRun_foldl (bs : List TestBatch) (acc : ℚ × ℕ) :
    bs.foldl testStep acc =
      (acc.1 + (bs.map (fun b => nllLossRed b.outputs b.labels)).sum,
       acc.2 + (bs.flatMap TestBatch.samples).countP
         (fun p => argmaxIdx p.1 == p.2)) := by
  induction bs generalizing acc with
  | nil => simp
  | cons b t ih =>
    simp [testStep, ih, List.countP_append, add_assoc]

/-- Helper: a nonnegative numerator divided by a denominator of at least
one is at most the numerator, summed over a list of such pairs. -/
theorem sum_div_le_sum (l : List (ℚ × ℕ))
    (h : ∀ p ∈ l, 0 ≤ p.1 ∧ 1 ≤ p.2) :
    (l.map (fun p => p.1 / (p.2 : ℚ))).sum ≤ (l.map Prod.fst).sum := by
  induction l with
  | nil => simp
  | cons p t ih =>
    have hp := h p (List.mem_cons_self p t)
    have ht : ∀ q ∈ t, 0 ≤ q.1 ∧ 1 ≤ q.2 :=
      fun q hq => h q (List.mem_cons_of_mem p hq)
    have hd : p.1 / (p.2 : ℚ) ≤ p.1 :=
      div_le_self hp.1 (by exact_mod_cast hp.2)
    simp only [List.map_cons, List.sum_cons]
    exact add_le_add hd (ih ht)

/-- Helper: over pairs of a nonnegative numerator and a positive natural
denominator, the summed quotients equal the summed numerators exactly
when every numerator is zero or its denominator is one. -/
theorem sum_div_eq_sum_iff (l : List (ℚ × ℕ))
    (h : ∀ p ∈ l, 0 ≤ p.1 ∧ 1 ≤ p.2) :
    ((l.map (fun p => p.1 / (p.2 : ℚ))).sum = (l.map Prod.fst).sum ↔
      ∀ p ∈ l, p.1 = 0 ∨ p.2 = 1) := by
  induction l with
  | nil => simp
  | cons p t ih =>
    have hp := h p (List.mem_cons_self p t)
    have ht : ∀ q ∈ t, 0 ≤ q.1 ∧ 1 ≤ q.2 :=
      fun q hq => h q (List.mem_cons_of_mem p hq)
    have hd : p.1 / (p.2 : ℚ) ≤ p.1 :=
      div_le_self hp.1 (by exact_mod_cast hp.2)
    have htle := sum_div_le_sum t ht
    have hcast : (1 : ℚ) ≤ (p.2 : ℚ) := by exact_mod_cast hp.2
    have hn0 : (p.2 : ℚ) ≠ 0 := by linarith
    simp only [List.map_cons, List.sum_cons, List.forall_mem_cons]
    constructor
    · intro heq
      have e1 : p.1 / (p.2 : ℚ) = p.1 := by linarith
      have e2 : (t.map (fun p => p.1 / (p.2 : ℚ))).sum
          = (t.map Prod.fst).sum := by linarith
      refine ⟨?_, (ih ht).mp e2⟩
      rw [div_eq_iff hn0] at e1
      have e4 : p.1 * ((p.2 : ℚ) - 1) = 0 := by linarith [e1]
      rcases mul_eq_zero.mp e4 with h5 | h5
      · exact Or.inl h5
      · right
        have h6 : (p.2 : ℚ) = 1 := by linarith
        exact_mod_cast h6
    · rintro ⟨h5, h6⟩
      have e2 := (ih ht).mpr h6
      rcases h5 with h5 | h5
      · simp [h5, e2]
      · rw [h5]
        simp [e2]

/-! ## Claims -/

/-- C1: in the loop of train, a NaN loss makes the process exit via
sys.exit before loss.backward and optimizer.step run for that batch:
the recorded events are exactly the backward/step pairs of the earlier
non-NaN batches, the loop reports an exit, and nothing runs afterwards. -/
theorem train_nanLoss_exits_without_update
    (pre post : List FloatVal) (l : FloatVal)
    (hpre : ∀ x ∈ pre, x.isnan = false) (hl : l.isnan = true) :
    trainLoop (pre ++ l :: post) =
      (pre.flatMap (fun _ => [TrainEvent.backward, TrainEvent.step]),
       true) := by
  induction pre with
  | nil => simp [trainLoop, hl]
  | cons x t ih =>
    have hx : x.isnan = false := hpre x (List.mem_cons_self x t)
    have ht : ∀ y ∈ t, y.isnan = false :=
      fun y hy => hpre y (List.mem_cons_of_mem x hy)
    simp [trainLoop, hx, ih ht]

/-- Witness for C1 at a concrete run: one clean batch, then a NaN batch,
then one more batch that is never reached. -/
theorem train_nanLoss_exits_without_update_witness :
    trainLoop [FloatVal.val 1, FloatVal.nan, FloatVal.val 2] =
      ([TrainEvent.backward, TrainEvent.step], true) :=
  train_nanLoss_exits_without_update [FloatVal.val 1] [FloatVal.val 2]
    FloatVal.nan (by decide) (by decide)

/-- C2 counterexample: a loss of positive infinity is non-finite but not
NaN, so the batch still proceeds to loss.backward and optimizer.step and
the process does not exit. -/
theorem train_infinite_loss_proceeds_cex :
    FloatVal.isfinite FloatVal.posInf = false ∧
    trainLoop [FloatVal.posInf] =
      ([TrainEvent.backward, TrainEvent.step], false) := by
  constructor <;> rfl

/-- C2 (amended): the loop of train halts immediately exactly on a NaN
loss; a non-finite loss that is not NaN (positive or negative infinity)
proceeds to loss.backward and optimizer.step like any finite loss. -/
theorem train_halts_exactly_on_nan (ls : List FloatVal) :
    trainLoop (FloatVal.nan :: ls) = ([], true) ∧
    trainLoop (FloatVal.posInf :: ls) =
      (TrainEvent.backward :: TrainEvent.step :: (trainLoop ls).1,
       (trainLoop ls).2) ∧
    trainLoop (FloatVal.negInf :: ls) =
      (TrainEvent.backward :: TrainEvent.step :: (trainLoop ls).1,
       (trainLoop ls).2) :=
  ⟨rfl, rfl, rfl⟩

/-- C3: selectModel raises AutoOptError exactly for model strings outside
fc and cnn, and selectOptimizer raises AutoOptError exactly for optimizer
strings outside its eight enumerated options. -/
theorem dispatch_raises_iff_unknown (a : Args) (m o : String) :
    (isError (selectModel m) = true ↔ ¬(m = "fc" ∨ m = "cnn")) ∧
    (isError (selectOptimizer a o) = true ↔
      ¬(o = "sgd" ∨ o = "adam" ∨ o = "gauss-newton" ∨ o = "gn" ∨
        o = "auto-sgd" ∨ o = "auto-adam" ∨ o = "auto-gauss-newton" ∨
        o = "auto-gn")) := by
  constructor
  · unfold selectModel
    split_ifs with h1 h2 <;> simp [isError, *]
  · unfold selectOptimizer
    split_ifs with h1 h2 h3 h4 h5 h6 <;> (simp [isError, *]; try tauto)

/-- C4: the loop of test starts both accumulators at zero, processes every
batch of the test loader, and ends with correct equal to the number of
samples over all batches whose first maximal output index equals their
label (and test_loss equal to the sum of the reduced batch losses). -/
theorem test_full_pass_correct_count (batches : List TestBatch) :
    testRun batches =
      ((batches.map (fun b => nllLossRed b.outputs b.labels)).sum,
       (batches.flatMap TestBatch.samples).countP
         (fun p => argmaxIdx p.1 == p.2)) := by
  simpa [testRun] using testRun_foldl batches (0, 0)

/-- C5: the optimizer selector is a dispatch table on the parsed optimizer
string; each of the eight recognized names constructs exactly the listed
optimizer with the listed constructor arguments, with gauss-newton/gn and
auto-gauss-newton/auto-gn sharing a constructor. -/
theorem optimizer_dispatch_table (a : Args) :
    selectOptimizer a "sgd" =
      Except.ok (OptimizerInstance.torchSGD a.lr a.momentum a.momentum) ∧
    selectOptimizer a "adam" =
      Except.ok (OptimizerInstance.torchAdam a.lr a.beta_1 a.beta_2 a.eps) ∧
    selectOptimizer a "gauss-newton" =
      Except.ok (OptimizerInstance.gaussNewton a.lr a.beta_1 a.beta_2 a.eps) ∧
    selectOptimizer a "gn" =
      Except.ok (OptimizerInstance.gaussNewton a.lr a.beta_1 a.beta_2 a.eps) ∧
    selectOptimizer a "auto-sgd" = Except.ok OptimizerInstance.autoSGD ∧
    selectOptimizer a "auto-adam" = Except.ok OptimizerInstance.autoAdam ∧
    selectOptimizer a "auto-gauss-newton" =
      Except.ok (OptimizerInstance.autoGaussNewton a.beta_2 a.eps) ∧
    selectOptimizer a "auto-gn" =
      Except.ok (OptimizerInstance.autoGaussNewton a.beta_2 a.eps) :=
  ⟨rfl, rfl, rfl, rfl, rfl, rfl, rfl, rfl⟩

/-- C6: main makes exactly epoch calls 1 through epochs in increasing
order, each consisting of one train call followed by one test call; when
epochs is zero or negative no call is made at all. -/
theorem main_epoch_schedule (n : ℤ) :
    mainEpochCalls n =
      (List.range n.toNat).flatMap
        (fun i => [EpochCall.trainCall ((i : ℤ) + 1),
                   EpochCall.testCall ((i : ℤ) + 1)]) ∧
    (n ≤ 0 → mainEpochCalls n = []) := by
  have h0 : n + 1 - 1 = n := by ring
  have hmain : mainEpochCalls n =
      (List.range n.toNat).flatMap
        (fun i => [EpochCall.trainCall ((i : ℤ) + 1),
                   EpochCall.testCall ((i : ℤ) + 1)]) := by
    unfold mainEpochCalls pyRange
    rw [h0, List.flatMap_map (fun i : ℕ => 1 + (i : ℤ))
      (fun e => [EpochCall.trainCall e, EpochCall.testCall e])
      (List.range n.toNat)]
    have hfun : (fun i : ℕ =>
        [EpochCall.trainCall (1 + (i : ℤ)),
         EpochCall.testCall (1 + (i : ℤ))]) =
        (fun i : ℕ =>
        [EpochCall.trainCall ((i : ℤ) + 1),
         EpochCall.testCall ((i : ℤ) + 1)]) := by
      funext i
      simp [add_comm]
    rw [hfun]
  refine ⟨hmain, fun h => ?_⟩
  rw [hmain, Int.toNat_of_nonpos h]
  rfl

/-- Witness for C6 with a negative epoch count: no train or test call. -/
theorem main_epoch_schedule_witness : mainEpochCalls (-3) = [] :=
  (main_epoch_schedule (-3)).2 (by decide)

/-- C7: the module flag use_mse_loss is False, and FCNet.forward always
returns the log_softmax of the final layer output, never the softmax
branch. -/
theorem fcnet_forward_always_log_softmax :
    use_mse_loss = false ∧
    ∀ (m : FCNet) (x : List ℚ),
      m.forward x =
        FCOut.logSoftmaxOf
          (linearApply m.fc_2 (reluVec (linearApply m.fc_1
            (reluVec (linearApply m.fc_0 x))))) ∧
      ∀ z : List ℚ, m.forward x ≠ FCOut.softmaxOf z := by
  refine ⟨rfl, fun m x => ⟨rfl, fun z h => ?_⟩⟩
  simp [FCNet.forward, use_mse_loss] at h

/-- C8: with the sentinel seed -1, get_args never calls torch.manual_seed,
while torch.cuda.manual_seed is called whenever CUDA is active, with
whatever seed was parsed, including the sentinel -1. -/
theorem seed_sentinel_behavior :
    (∀ (c : Bool) (t : ℤ),
      SeedCall.manualSeed t ∉ getArgsSeedCalls (-1) c) ∧
    (∀ s : ℤ, SeedCall.cudaManualSeed s ∈ getArgsSeedCalls s true) ∧
    getArgsSeedCalls (-1) true = [SeedCall.cudaManualSeed (-1)] ∧
    getArgsSeedCalls (-1) false = [] := by
  refine ⟨?_, ?_, rfl, rfl⟩
  · intro c t
    cases c <;> simp [getArgsSeedCalls]
  · intro s
    by_cases h : s = -1 <;> simp [getArgsSeedCalls, h]

/-- C9: the two loss branches of train agree: for every optimizer name,
the mean of the per-sample nll losses (the loss_all branch) equals the
single reduced nll loss of the other branch, whenever outputs and targets
have the same length. -/
theorem train_loss_branches_agree (opt : String)
    (outputs : List (List ℚ)) (targets : List ℕ)
    (h : outputs.length = targets.length) :
    trainBatchLoss opt outputs targets = nllLossRed outputs targets := by
  unfold trainBatchLoss
  split_ifs with hmem
  · rfl
  · unfold torchMean nllLossNone nllLossRed
    rw [List.length_zipWith, h, min_self]

/-- Witness for C9 on a concrete batch with an auto optimizer name. -/
theorem train_loss_branches_agree_witness :
    trainBatchLoss "auto-sgd" [[-1], [-3]] [0, 0] =
      nllLossRed [[-1], [-3]] [0, 0] :=
  train_loss_branches_agree "auto-sgd" [[-1], [-3]] [0, 0] (by decide)

/-- C10 counterexample: equal batch sizes are neither necessary nor
sufficient for the reported average loss to coincide with the per-sample
mean.  A size-1 batch with loss 5 next to a size-2 batch with losses 0
makes the two coincide at 5/3 despite unequal sizes, while two size-2
batches with losses 1,1 and 3,3 give a reported value of 1 against a
per-sample mean of 2 despite equal sizes. -/
theorem avg_loss_sizes_cex :
    (testAvgLoss [⟨[[-5]], [0]⟩, ⟨[[0], [0]], [0, 0]⟩] =
       perSampleMean [⟨[[-5]], [0]⟩, ⟨[[0], [0]], [0, 0]⟩] ∧
     ([⟨[[-5]], [0]⟩, ⟨[[0], [0]], [0, 0]⟩] : List TestBatch).map
        (fun b => b.labels.length) = [1, 2]) ∧
    (testAvgLoss [⟨[[-1], [-1]], [0, 0]⟩, ⟨[[-3], [-3]], [0, 0]⟩] ≠
       perSampleMean [⟨[[-1], [-1]], [0, 0]⟩, ⟨[[-3], [-3]], [0, 0]⟩] ∧
     ([⟨[[-1], [-1]], [0, 0]⟩, ⟨[[-3], [-3]], [0, 0]⟩] : List TestBatch).map
        (fun b => b.labels.length) = [2, 2]) := by
  refine ⟨⟨?_, rfl⟩, ⟨?_, rfl⟩⟩ <;>
    norm_num [testAvgLoss, perSampleMean, testRun, testStep, nllLossRed,
      nllSample, nllLossNone, allSampleLosses, datasetSize]

/-- C10 (amended): the reported Average loss is the sum of per-batch mean
nll losses divided by the total number of test samples, which differs from
the mean nll loss over all individual samples in general; for well-formed
batches with nonnegative per-sample losses the two coincide exactly when
every batch whose losses do not sum to zero has exactly one sample (equal
batch sizes are neither necessary nor sufficient). -/
theorem avg_loss_eq_per_sample_iff (bs : List TestBatch)
    (hwf : ∀ b ∈ bs, b.outputs.length = b.labels.length ∧
      b.labels.length ≠ 0)
    (hpos : ∀ b ∈ bs, ∀ q ∈ nllLossNone b.outputs b.labels, 0 ≤ q) :
    testAvgLoss bs = perSampleMean bs ↔
      ∀ b ∈ bs, (nllLossNone b.outputs b.labels).sum = 0 ∨
        b.labels.length = 1 := by
  by_cases hbs : bs = []
  · subst hbs
    simp [testAvgLoss, perSampleMean, testRun, allSampleLosses, datasetSize]
  set l : List (ℚ × ℕ) := bs.map
    (fun b => ((nllLossNone b.outputs b.labels).sum, b.labels.length))
    with hl
  have hcond : ∀ p ∈ l, 0 ≤ p.1 ∧ 1 ≤ p.2 := by
    intro p hp
    rw [hl] at hp
    rcases List.mem_map.mp hp with ⟨b, hb, rfl⟩
    exact ⟨List.sum_nonneg (hpos b hb),
      Nat.one_le_iff_ne_zero.mpr (hwf b hb).2⟩
  have hfst : (testRun bs).1 = (l.map (fun p => p.1 / (p.2 : ℚ))).sum := by
    have h := testRun_foldl bs (0, 0)
    have h2 : testRun bs =
        ((bs.map (fun b => nllLossRed b.outputs b.labels)).sum,
         (bs.flatMap TestBatch.samples).countP
           (fun p => argmaxIdx p.1 == p.2)) := by
      simpa [testRun] using h
    rw [h2, hl]
    simp [List.map_map, nllLossRed, nllLossNone, Function.comp_def]
  have hsum : (allSampleLosses bs).sum = (l.map Prod.fst).sum := by
    rw [hl]
    simp [allSampleLosses, List.map_map, List.flatMap, List.sum_flatten,
      Function.comp_def]
  have hlen : (allSampleLosses bs).length = datasetSize bs := by
    rw [allSampleLosses, datasetSize, List.length_flatMap]
    refine congrArg List.sum (List.map_congr_left ?_)
    intro b hb
    simp only [Function.comp_apply, nllLossNone, List.length_zipWith,
      (hwf b hb).1, min_self]
  have hN : datasetSize bs ≠ 0 := by
    rcases bs with _ | ⟨b, t⟩
    · exact absurd rfl hbs
    · have hb1 : b.labels.length ≠ 0 :=
        (hwf b (List.mem_cons_self b t)).2
      simp only [datasetSize, List.map_cons, List.sum_cons]
      omega
  have hNq : ((datasetSize bs : ℕ) : ℚ) ≠ 0 := by exact_mod_cast hN
  have hmem : (∀ p ∈ l, p.1 = 0 ∨ p.2 = 1) ↔
      ∀ b ∈ bs, (nllLossNone b.outputs b.labels).sum = 0 ∨
        b.labels.length = 1 := by
    rw [hl]
    exact List.forall_mem_map
  have key : ((l.map (fun p => p.1 / (p.2 : ℚ))).sum / (datasetSize bs : ℚ)
      = (l.map Prod.fst).sum / (datasetSize bs : ℚ)) ↔
      (l.map (fun p => p.1 / (p.2 : ℚ))).sum = (l.map Prod.fst).sum := by
    constructor
    · intro h
      rw [div_eq_div_iff hNq hNq] at h
      exact mul_right_cancel₀ hNq h
    · intro h
      rw [h]
  unfold testAvgLoss perSampleMean
  rw [hfst, hsum, hlen, key, sum_div_eq_sum_iff l hcond, hmem]

/-- Witness for C10 (amended) on a single one-sample batch, where the two
figures coincide. -/
theorem avg_loss_eq_per_sample_iff_witness :
    testAvgLoss [⟨[[-7, 0]], [0]⟩] = perSampleMean [⟨[[-7, 0]], [0]⟩] ↔
      ∀ b ∈ ([⟨[[-7, 0]], [0]⟩] : List TestBatch),
        (nllLossNone b.outputs b.labels).sum = 0 ∨ b.labels.length = 1 :=
  avg_loss_eq_per_sample_iff [⟨[[-7, 0]], [0]⟩] (by decide) (by decide)

end AutoOptMnist
